import Mathlib

/-
Verification of the COGNISCRIBE native audio capture and encoding pipeline
(desktop-app/src-tauri/src/audio/{processor,recorder}.rs) against its design
specification.

Modelling conventions:
- f32 values are modelled as rationals (ℚ).  Every operation the audio path
  performs on floats (comparison, selection of one operand, multiplication by
  the integer constant 32767 of small inputs, division of small sums) is exact
  in IEEE f32 for the inputs the claims quantify over, so the rational model
  is faithful "within floating-point tolerance" as the spec itself demands.
- i16 / u16 device samples are modelled as ℤ / ℕ.
- The Rust `expr as i16` cast from f32 is truncation toward zero with
  saturation; it is modelled explicitly below.
- Paths are modelled as their character lists relative to the per-application
  recordings directory (the platform base directory is an environment
  constant shared by all sessions, hence irrelevant to path distinctness).
-/

namespace Cogniscribe

/-! ## Signal Pipeline — src/audio/processor.rs -/

/-- Rust struct `AudioPipeline { limiter_threshold: f32 }`. -/
structure AudioPipeline where
  limiter_threshold : ℚ
  deriving DecidableEq

/-- Rust `AudioPipeline::new`: `limiter_threshold: 0.98`. -/
def AudioPipeline.new : AudioPipeline := ⟨98 / 100⟩

/-- Rust `AudioPipeline::apply_limiter`: hard clip to `±limiter_threshold`. -/
def AudioPipeline.apply_limiter (p : AudioPipeline) (sample : ℚ) : ℚ :=
  if p.limiter_threshold < sample then p.limiter_threshold
  else if sample < -p.limiter_threshold then -p.limiter_threshold
  else sample

/-- Rust `AudioPipeline::process_sample(&mut self, sample) -> f32`.  The
borrow is mutable but the body only reads `self`; the model returns the
post-call pipeline state alongside the output to make that visible. -/
def AudioPipeline.process_sample (p : AudioPipeline) (sample : ℚ) :
    AudioPipeline × ℚ :=
  (p, p.apply_limiter sample)

/-! ## Capture-side conversion — src/audio/recorder.rs -/

/-- Frames of `n` channels as produced by Rust `input.chunks(n)` (fuel-based
structural recursion so the kernel can evaluate it; the fuel is the list
length, which bounds the number of chunks whenever `n ≥ 1`). -/
def chunksAux {α : Type} (n : ℕ) : ℕ → List α → List (List α)
  | _, [] => []
  | 0, _ :: _ => []
  | fuel + 1, x :: xs => (x :: xs).take n :: chunksAux n fuel ((x :: xs).drop n)

/-- Rust `slice::chunks(n)` on a list. -/
def chunks {α : Type} (n : ℕ) (l : List α) : List (List α) :=
  chunksAux n l.length l

/-- Normalization used by `write_input_data_i16`: `*sample as f32 / scale`
with `scale = i16::MAX`. -/
def i16_norm (sample : ℤ) : ℚ := (sample : ℚ) / 32767

/-- Normalization used by `write_input_data_u16`:
`(*sample as f32 / scale) * 2.0 - 1.0` with `scale = u16::MAX`. -/
def u16_norm (sample : ℕ) : ℚ := (sample : ℚ) / 65535 * 2 - 1

/-- Mono values produced by the frame loop of `write_input_data_f32`:
per frame, `sum / channels`. -/
def write_frames_f32 (channels : ℕ) (input : List ℚ) : List ℚ :=
  (chunks channels input).map (fun frame => frame.sum / (channels : ℚ))

/-- Mono values produced by the frame loop of `write_input_data_i16`. -/
def write_frames_i16 (channels : ℕ) (input : List ℤ) : List ℚ :=
  (chunks channels input).map
    (fun frame => (frame.map i16_norm).sum / (channels : ℚ))

/-- Mono values produced by the frame loop of `write_input_data_u16`. -/
def write_frames_u16 (channels : ℕ) (input : List ℕ) : List ℚ :=
  (chunks channels input).map
    (fun frame => (frame.map u16_norm).sum / (channels : ℚ))

/-- Arithmetic mean of a list of rationals (the spec's downmix policy). -/
def arithMean (l : List ℚ) : ℚ := l.sum / (l.length : ℚ)

/-- Saturation of an integer at the i16 bounds. -/
def i16_sat (t : ℤ) : ℤ :=
  if t < -32768 then -32768 else if 32767 < t then 32767 else t

/-- Rust `expr as i16` applied to an f32: truncation toward zero with
saturation at the i16 bounds. -/
def f32_as_i16 (q : ℚ) : ℤ :=
  i16_sat (if 0 ≤ q then q.floor else q.ceil)

/-- Rust `f32::clamp(lo, hi)`. -/
def rustClamp (q lo hi : ℚ) : ℚ := if q < lo then lo else if hi < q then hi else q

/-- Rust `push_sample`: process through the pipeline, clamp to `[-1,1]`,
scale by `i16::MAX` and cast to i16.  Returns the value handed to
`sender.try_send`. -/
def push_sample (p : AudioPipeline) (mono : ℚ) : ℤ :=
  f32_as_i16 (rustClamp (p.process_sample mono).2 (-1) 1 * 32767)

/-- Rust `write_input_data_f32`: returns the list of i16 samples offered to
the channel by one callback invocation (empty when the pause flag is set —
the function returns before touching the pipeline or the channel). -/
def write_input_data_f32 (paused : Bool) (channels : ℕ) (input : List ℚ) :
    List ℤ :=
  if paused then []
  else (write_frames_f32 channels input).map (push_sample AudioPipeline.new)

/-! ## Recorder actor — src/audio/recorder.rs, `NativeRecorder` -/

/-- Error outcomes surfaced by the recorder methods. -/
inductive RecErr where
  | AlreadyRecording
  | NotRecording
  | DeviceError
  | IoError
  | MissingPath
  deriving DecidableEq

/-- Digit character, as produced by decimal formatting. -/
def decDigitChar (d : ℕ) : Char := Char.ofNat (48 + d)

/-- Decimal rendering of a natural number, as produced by Rust
`format!("{}", t)` for `u64`: most-significant digit first, a single `'0'`
for zero. -/
def natDecimal (n : ℕ) : List Char :=
  if n = 0 then ['0'] else ((Nat.digits 10 n).reverse).map decDigitChar

/-- Output path resolved by `NativeRecorder::start`, relative to the
per-application recordings directory:
`format!("cogniscribe-recording-{}.wav", timestamp)` where `timestamp` is
whole seconds since the Unix epoch. -/
def recording_path (t : ℕ) : List Char :=
  "cogniscribe-recording-".data ++ (natDecimal t ++ ".wav".data)

/-- Pointwise update of the flag heap (a fresh `Arc<AtomicBool>` cell is a
fresh heap index; `store` updates the cell). -/
def setFlag (flags : ℕ → Bool) (i : ℕ) (v : Bool) : ℕ → Bool :=
  fun j => if j = i then v else flags j

/-- Rust struct `NativeRecorder` together with the state it reaches through
the shared flags, the sample channel and the encoder thread.  `Arc` cells
are modelled by allocation ids into the `flags` heap; `stream` holds the
pause-flag id captured by the device callback closure, `writer_handle`
holds the stop-flag id captured by the encoder thread. -/
@[ext]
structure RecorderState where
  stream        : Option ℕ
  writer_handle : Option ℕ
  stop_id       : ℕ
  pause_id      : ℕ
  output_path   : Option (List Char)
  recording     : Bool
  flags         : ℕ → Bool
  next_id       : ℕ
  alloc_ids     : List ℕ
  cap           : ℕ
  channel       : List ℤ
  file          : List ℤ
  started_paths : List (List Char)

/-- Rust `NativeRecorder::new`: no stream, no writer handle, two freshly
allocated flags (ids 0 and 1) both `false`, not recording. -/
def RecorderState.init : RecorderState where
  stream := none
  writer_handle := none
  stop_id := 0
  pause_id := 1
  output_path := none
  recording := false
  flags := fun _ => false
  next_id := 2
  alloc_ids := [0, 1]
  cap := 0
  channel := []
  file := []
  started_paths := []

/-- Rust `NativeRecorder::start` on the success path: bail with
`AlreadyRecording` if recording, otherwise resolve the timestamped output
path, allocate fresh stop/pause flags (both `false`), hand the stop flag to
the spawned encoder thread and the pause flag to the capture callback,
create the bounded channel sized to the sample rate, and mark recording. -/
def NativeRecorder.start (t rate : ℕ) (s : RecorderState) :
    Except RecErr (List Char) × RecorderState :=
  if s.recording then (.error .AlreadyRecording, s)
  else
    let path := recording_path t
    let stopId := s.next_id
    let pauseId := s.next_id + 1
    (.ok path,
      { s with
        stream := some pauseId
        writer_handle := some stopId
        stop_id := stopId
        pause_id := pauseId
        output_path := some path
        recording := true
        flags := setFlag (setFlag s.flags stopId false) pauseId false
        next_id := s.next_id + 2
        alloc_ids := s.alloc_ids ++ [stopId, pauseId]
        cap := rate
        channel := []
        file := []
        started_paths := s.started_paths ++ [path] })

/-- Rust `NativeRecorder::start` on a failure path (directory creation,
clock read, device negotiation, stream construction or `play` failed): every
failure occurs before any field of `self` is assigned, so the state is
unchanged. -/
def NativeRecorder.start_failed (s : RecorderState) :
    Except RecErr (List Char) × RecorderState :=
  if s.recording then (.error .AlreadyRecording, s) else (.error .DeviceError, s)

/-- Rust `NativeRecorder::stop`, parameterized by whether the joined encoder
thread's `Result` is `Ok`.  Mirrors the statement order of the source: bail
if not recording; store `true` into the stop flag; drop the stream; take and
join the writer handle — an `Err` from the join propagates at the `??`
BEFORE `recording` is reset and BEFORE the pause flag is cleared; only on
the success path are `recording` and the pause flag reset and the output
path returned.  The file update takes the schedule in which the joined
encoder drains the remaining channel contents before finalizing; the
timeout-arm race in which the encoder instead breaks without re-checking
emptiness is modelled separately by `WriterStep` below. -/
def NativeRecorder.stop (writer_ok : Bool) (s : RecorderState) :
    Except RecErr (List Char) × RecorderState :=
  if !s.recording then (.error .NotRecording, s)
  else
    let s1 := { s with flags := setFlag s.flags s.stop_id true, stream := none }
    let joined := s1.writer_handle.isSome
    let s2 := { s1 with
      writer_handle := none
      file := if joined && writer_ok then s1.file ++ s1.channel else s1.file
      channel := [] }
    if joined && !writer_ok then (.error .IoError, s2)
    else
      let s3 := { s2 with
        recording := false
        flags := setFlag s2.flags s2.pause_id false }
      match s3.output_path with
      | some p => (.ok p, s3)
      | none => (.error .MissingPath, s3)

/-- Rust `NativeRecorder::pause`: bail with `NotRecording` when idle,
otherwise store `true` into the pause flag and nothing else. -/
def NativeRecorder.pause (s : RecorderState) :
    Except RecErr Unit × RecorderState :=
  if !s.recording then (.error .NotRecording, s)
  else (.ok (), { s with flags := setFlag s.flags s.pause_id true })

/-- Rust `NativeRecorder::resume`: bail with `NotRecording` when idle,
otherwise store `false` into the pause flag and nothing else. -/
def NativeRecorder.resume (s : RecorderState) :
    Except RecErr Unit × RecorderState :=
  if !s.recording then (.error .NotRecording, s)
  else (.ok (), { s with flags := setFlag s.flags s.pause_id false })

/-- Rust `sender.try_send(sample)` on the bounded channel: append when below
capacity, silently discard otherwise. -/
def try_send (cap : ℕ) (ch : List ℤ) (v : ℤ) : List ℤ :=
  if ch.length < cap then ch ++ [v] else ch

/-- One invocation of the f32 capture callback: only possible while the
stream is alive; reads the pause flag the closure captured, and offers each
produced sample to the channel with `try_send`. -/
def deliver_f32 (channels : ℕ) (data : List ℚ) (s : RecorderState) :
    RecorderState :=
  match s.stream with
  | none => s
  | some pid =>
      let emitted := write_input_data_f32 (s.flags pid) channels data
      { s with channel := emitted.foldl (try_send s.cap) s.channel }

/-- Events the recorder actor processes (commands in arrival order) plus
capture-callback deliveries. -/
inductive RecEvent where
  | start (t rate : ℕ)
  | startFail
  | stop (writer_ok : Bool)
  | pause
  | resume
  | query
  | deliverF32 (channels : ℕ) (data : List ℚ)

/-- State transition of one event (the actor loop body of
`spawn_recorder_thread`, plus callback deliveries). -/
def recStep (s : RecorderState) (e : RecEvent) : RecorderState :=
  match e with
  | .start t rate => (NativeRecorder.start t rate s).2
  | .startFail => (NativeRecorder.start_failed s).2
  | .stop w => (NativeRecorder.stop w s).2
  | .pause => (NativeRecorder.pause s).2
  | .resume => (NativeRecorder.resume s).2
  | .query => s
  | .deliverF32 c data => deliver_f32 c data s

/-- Run of the recorder from `NativeRecorder::new` over an event list. -/
def runRecorder (evs : List RecEvent) : RecorderState :=
  evs.foldl recStep RecorderState.init

/-- A state the recorder can reach through some event sequence. -/
def RecorderReachable (s : RecorderState) : Prop :=
  ∃ evs, runRecorder evs = s

/-! ## Encoder (writer) thread — src/audio/recorder.rs, `spawn_writer_thread` -/

/-- Control position of the encoder loop: either at the loop head (about to
evaluate the head's `stop && is_empty` check and then `recv_timeout`), or
between `recv_timeout` returning `Err(Timeout)` and the Timeout arm's load
of the stop flag. -/
inductive WriterPhase where
  | loop_head
  | timeout_check
  deriving DecidableEq

/-- Joint state of the sample channel and the encoder thread: the channel's
FIFO contents, the samples written to the container so far, the ghost list
of all samples ever successfully enqueued, the shared stop flag, whether
the container has been finalized, and the loop's control position. -/
structure WriterState where
  queue     : List ℤ
  written   : List ℤ
  enqueued  : List ℤ
  stop      : Bool
  finalized : Bool
  phase     : WriterPhase
  deriving DecidableEq

/-- Initial writer state: empty channel, empty container, stop clear, at
the loop head. -/
def WriterState.init : WriterState := ⟨[], [], [], false, false, .loop_head⟩

/-- Interleaved small-step semantics of the producer (capture callback), the
actor's stop signal, and the encoder loop of `spawn_writer_thread`:
- `enqueue`: a sample is successfully enqueued while stop is clear (the
  capture callback reads only the pause flag, never the stop flag; the
  actor drops the stream right after setting stop, which halts callbacks);
- `set_stop`: the actor stores `true` into the shared stop flag;
- `head_break`: the loop head observes stop set AND the queue empty, breaks
  and finalizes (the only break that re-checks emptiness);
- `recv`: `recv_timeout` returns `Ok(sample)` and the sample is appended to
  the container;
- `timeout`: `recv_timeout` reaches its deadline with the queue empty; the
  thread is now between the timeout and the Timeout arm's stop-flag load;
- `timeout_break`: the Timeout arm loads stop = true and breaks, finalizing
  WITHOUT re-checking channel emptiness — samples enqueued between the
  timeout and the load are left in the queue, unwritten;
- `timeout_cont`: the Timeout arm loads stop = false and loops.
A Disconnected result can only be observed with the queue empty after all
senders are dropped, which the actor does only after setting stop; it
behaves like `head_break` and is not modelled separately. -/
inductive WriterStep : WriterState → WriterState → Prop where
  | enqueue (s : WriterState) (v : ℤ) :
      s.stop = false →
      WriterStep s { s with queue := s.queue ++ [v], enqueued := s.enqueued ++ [v] }
  | set_stop (s : WriterState) :
      WriterStep s { s with stop := true }
  | head_break (s : WriterState) :
      s.phase = .loop_head → s.stop = true → s.queue = [] → s.finalized = false →
      WriterStep s { s with finalized := true }
  | recv (s : WriterState) (v : ℤ) (rest : List ℤ) :
      s.phase = .loop_head → s.queue = v :: rest → s.finalized = false →
      WriterStep s { s with queue := rest, written := s.written ++ [v] }
  | timeout (s : WriterState) :
      s.phase = .loop_head → s.queue = [] → s.finalized = false →
      WriterStep s { s with phase := .timeout_check }
  | timeout_break (s : WriterState) :
      s.phase = .timeout_check → s.stop = true → s.finalized = false →
      WriterStep s { s with finalized := true }
  | timeout_cont (s : WriterState) :
      s.phase = .timeout_check → s.stop = false → s.finalized = false →
      WriterStep s { s with phase := .loop_head }

/-- Writer states reachable from the initial state. -/
def WriterReachable (s : WriterState) : Prop :=
  Relation.ReflTransGen WriterStep WriterState.init s

/-! ## Helper lemmas about chunking -/

theorem chunksAux_congr {α : Type} (n : ℕ) (hn : 0 < n) :
    ∀ (f1 f2 : ℕ) (l : List α), l.length ≤ f1 → l.length ≤ f2 →
      chunksAux n f1 l = chunksAux n f2 l := by
  intro f1
  induction f1 with
  | zero =>
      intro f2 l h1 _
      have hl : l = [] := List.eq_nil_of_length_eq_zero (Nat.le_zero.mp h1)
      subst hl
      cases f2 <;> rfl
  | succ f ih =>
      intro f2 l h1 h2
      cases l with
      | nil => cases f2 <;> rfl
      | cons x xs =>
          cases f2 with
          | zero => simp at h2
          | succ g =>
              simp only [chunksAux]
              congr 1
              have hd : (List.drop n (x :: xs)).length ≤ xs.length := by
                rw [List.length_drop]
                simp only [List.length_cons]
                omega
              apply ih
              · simp only [List.length_cons] at h1
                omega
              · simp only [List.length_cons] at h2
                omega

theorem chunks_cons {α : Type} (c : ℕ) (hc : 0 < c) (a rest : List α)
    (ha : a.length = c) : chunks c (a ++ rest) = a :: chunks c rest := by
  cases a with
  | nil => rw [List.length_nil] at ha; omega
  | cons x xs =>
      have hx : (x :: xs) ++ rest = x :: (xs ++ rest) := List.cons_append x xs rest
      unfold chunks
      rw [hx]
      have hlen : (x :: (xs ++ rest)).length = (xs.length + rest.length) + 1 := by
        simp only [List.length_cons, List.length_append]
      rw [hlen]
      simp only [chunksAux]
      rw [← hx, List.take_left' ha, List.drop_left' ha]
      congr 1
      exact chunksAux_congr c hc _ _ rest (Nat.le_add_left _ _) le_rfl

theorem chunks_full_frames {α : Type} (c : ℕ) (hc : 0 < c) :
    ∀ (k : ℕ) (l : List α), l.length = k * c →
      ∀ f ∈ chunks c l, f.length = c := by
  intro k
  induction k with
  | zero =>
      intro l hl f hf
      have : l = [] := List.eq_nil_of_length_eq_zero (by omega)
      subst this
      simp [chunks, chunksAux] at hf
  | succ k ih =>
      intro l hl f hf
      rw [Nat.succ_mul] at hl
      have hcl : c ≤ l.length := by omega
      have htake : (l.take c).length = c := by
        rw [List.length_take]
        omega
      rw [← List.take_append_drop c l, chunks_cons c hc _ _ htake] at hf
      rcases List.mem_cons.mp hf with h | h
      · rw [h]; exact htake
      · exact ih (l.drop c) (by rw [List.length_drop]; omega) f h

/-- C2: for every input x, the Signal Pipeline's `process_sample(x)` lies in
`[-threshold, threshold]` with `threshold = 0.98`; for every x with
`|x| ≤ threshold`, `process_sample(x) = x`; and the call leaves the pipeline
state unchanged (stateless apart from the fixed `limiter_threshold`). -/
theorem limiter_contract (x : ℚ) :
    -(98 / 100 : ℚ) ≤ (AudioPipeline.new.process_sample x).2 ∧
    (AudioPipeline.new.process_sample x).2 ≤ (98 / 100 : ℚ) ∧
    (|x| ≤ (98 / 100 : ℚ) → (AudioPipeline.new.process_sample x).2 = x) ∧
    (∀ p : AudioPipeline, (p.process_sample x).1 = p) := by
  simp only [AudioPipeline.process_sample, AudioPipeline.new,
    AudioPipeline.apply_limiter]
  refine ⟨?_, ?_, fun h => ?_, fun p => trivial⟩
  · split_ifs with h1 h2 <;> linarith
  · split_ifs with h1 h2 <;> linarith
  · obtain ⟨hl, hr⟩ := abs_le.mp h
    split_ifs with h1 h2
    · linarith
    · linarith
    · rfl

/-- Witness for C2 at the concrete input 1/2. -/
theorem limiter_contract_witness :
    (AudioPipeline.new.process_sample ((1 : ℚ) / 2)).2 = (1 : ℚ) / 2 :=
  (limiter_contract ((1 : ℚ) / 2)).2.2.1 (by rw [abs_le]; norm_num)

/-- C3: for every captured frame of N channels (input length a multiple of
N), in each of the three supported source encodings, the emitted mono value
is the arithmetic mean of the frame's N normalized channel values. -/
theorem downmix_is_arithmetic_mean (c : ℕ) (hc : 0 < c) :
    (∀ (k : ℕ) (input : List ℚ), input.length = k * c →
      write_frames_f32 c input = (chunks c input).map arithMean) ∧
    (∀ (k : ℕ) (input : List ℤ), input.length = k * c →
      write_frames_i16 c input =
        (chunks c input).map (fun f => arithMean (f.map i16_norm))) ∧
    (∀ (k : ℕ) (input : List ℕ), input.length = k * c →
      write_frames_u16 c input =
        (chunks c input).map (fun f => arithMean (f.map u16_norm))) := by
  refine ⟨?_, ?_, ?_⟩ <;> intro k input hlen
  · unfold write_frames_f32
    apply List.map_congr_left
    intro f hf
    have hflen := chunks_full_frames c hc k input hlen f hf
    unfold arithMean
    rw [hflen]
  · unfold write_frames_i16
    apply List.map_congr_left
    intro f hf
    have hflen := chunks_full_frames c hc k input hlen f hf
    unfold arithMean
    rw [List.length_map, hflen]
  · unfold write_frames_u16
    apply List.map_congr_left
    intro f hf
    have hflen := chunks_full_frames c hc k input hlen f hf
    unfold arithMean
    rw [List.length_map, hflen]

/-- Witness for C3 with two channels and concrete frames. -/
theorem downmix_is_arithmetic_mean_witness :
    write_frames_f32 2 [1, 0, 1 / 2, 1 / 2] =
      (chunks 2 [(1 : ℚ), 0, 1 / 2, 1 / 2]).map arithMean ∧
    write_frames_i16 2 [32767, 0, -32768, 32767] =
      (chunks 2 [(32767 : ℤ), 0, -32768, 32767]).map
        (fun f => arithMean (f.map i16_norm)) ∧
    write_frames_u16 2 [65535, 0, 1, 2] =
      (chunks 2 [65535, 0, 1, 2]).map (fun f => arithMean (f.map u16_norm)) := by
  have h := downmix_is_arithmetic_mean 2 (by norm_num)
  exact ⟨h.1 2 [1, 0, 1 / 2, 1 / 2] (by decide),
    h.2.1 2 [32767, 0, -32768, 32767] (by decide),
    h.2.2 2 [65535, 0, 1, 2] (by decide)⟩

/-! ## Writer-thread stop path (C1) -/

/-- C1 (code-bug evaluation): the Timeout arm of the encoder loop breaks on
the stop flag alone, without re-checking channel emptiness.  In the legal
interleaving below, `recv_timeout` reaches its deadline with the channel
empty, the capture callback then successfully enqueues sample 5, the actor
then stores `stop = true`, and the resumed writer loads stop and breaks —
finalizing the container with the pre-stop sample 5 still queued.  The
finalized writer state has `written = []` but `enqueued = [5]`: a sample
successfully enqueued before the stop flag was set is lost, contradicting
the claimed drain-until-empty behavior. -/
theorem timeout_break_loses_pre_stop_sample :
    WriterReachable
      (⟨[5], [], [5], true, true, .timeout_check⟩ : WriterState) ∧
    (⟨[5], [], [5], true, true, .timeout_check⟩ : WriterState).finalized
      = true ∧
    (⟨[5], [], [5], true, true, .timeout_check⟩ : WriterState).written ≠
      (⟨[5], [], [5], true, true, .timeout_check⟩ : WriterState).enqueued := by
  refine ⟨?_, rfl, by decide⟩
  exact Relation.ReflTransGen.head (WriterStep.timeout WriterState.init rfl rfl rfl)
    (Relation.ReflTransGen.head (WriterStep.enqueue _ 5 rfl)
      (Relation.ReflTransGen.head (WriterStep.set_stop _)
        (Relation.ReflTransGen.head (WriterStep.timeout_break _ rfl rfl rfl)
          Relation.ReflTransGen.refl)))

/-! ## Recorder-actor invariants -/

/-- Allocation invariant: every allocated flag id is below the allocator's
next id, the pause flag is allocated right after the stop flag, and both
current flag ids are allocated. -/
def RInv (s : RecorderState) : Prop :=
  (∀ i ∈ s.alloc_ids, i < s.next_id) ∧
  s.pause_id = s.stop_id + 1 ∧
  s.stop_id + 2 ≤ s.next_id ∧
  s.stop_id ∈ s.alloc_ids ∧ s.pause_id ∈ s.alloc_ids

theorem RInv_init : RInv RecorderState.init := by
  refine ⟨?_, rfl, ?_, ?_, ?_⟩ <;> simp [RecorderState.init]

/-- `stop` does not touch the allocator or the flag ids. -/
theorem stop_ids_frame (w : Bool) (s : RecorderState) :
    (NativeRecorder.stop w s).2.alloc_ids = s.alloc_ids ∧
    (NativeRecorder.stop w s).2.next_id = s.next_id ∧
    (NativeRecorder.stop w s).2.stop_id = s.stop_id ∧
    (NativeRecorder.stop w s).2.pause_id = s.pause_id := by
  unfold NativeRecorder.stop
  dsimp only
  split
  · exact ⟨rfl, rfl, rfl, rfl⟩
  · split
    · exact ⟨rfl, rfl, rfl, rfl⟩
    · split
      · exact ⟨rfl, rfl, rfl, rfl⟩
      · exact ⟨rfl, rfl, rfl, rfl⟩

theorem RInv_step {s : RecorderState} (e : RecEvent) (h : RInv s) :
    RInv (recStep s e) := by
  obtain ⟨h1, h2, h3, h4, h5⟩ := h
  cases e with
  | start t rate =>
      by_cases hr : s.recording = true
      · simpa [recStep, NativeRecorder.start, hr] using ⟨h1, h2, h3, h4, h5⟩
      · rw [Bool.not_eq_true] at hr
        simp only [recStep, NativeRecorder.start, hr, Bool.false_eq_true,
          if_false]
        refine ⟨?_, rfl, le_rfl, ?_, ?_⟩
        · intro i hi
          show i < s.next_id + 2
          rcases List.mem_append.mp hi with hi | hi
          · have := h1 i hi
            omega
          · have hi2 : i = s.next_id ∨ i = s.next_id + 1 := by simpa using hi
            rcases hi2 with rfl | rfl <;> omega
        · exact List.mem_append.mpr (Or.inr (by simp))
        · exact List.mem_append.mpr (Or.inr (by simp))
  | startFail =>
      by_cases hr : s.recording = true <;>
        simp [recStep, NativeRecorder.start_failed, hr] <;>
        exact ⟨h1, h2, h3, h4, h5⟩
  | stop w =>
      obtain ⟨f1, f2, f3, f4⟩ := stop_ids_frame w s
      simp only [recStep]
      exact ⟨by rw [f1, f2]; exact h1, by rw [f4, f3]; exact h2,
        by rw [f3, f2]; exact h3, by rw [f3, f1]; exact h4,
        by rw [f4, f1]; exact h5⟩
  | pause =>
      by_cases hr : s.recording = true <;>
        simp [recStep, NativeRecorder.pause, hr] <;>
        exact ⟨h1, h2, h3, h4, h5⟩
  | resume =>
      by_cases hr : s.recording = true <;>
        simp [recStep, NativeRecorder.resume, hr] <;>
        exact ⟨h1, h2, h3, h4, h5⟩
  | query => exact ⟨h1, h2, h3, h4, h5⟩
  | deliverF32 c data =>
      cases hs : s.stream with
      | none => simpa [recStep, deliver_f32, hs] using ⟨h1, h2, h3, h4, h5⟩
      | some pid => simpa [recStep, deliver_f32, hs] using ⟨h1, h2, h3, h4, h5⟩

theorem foldl_RInv (evs : List RecEvent) :
    ∀ s0 : RecorderState, RInv s0 → RInv (evs.foldl recStep s0) := by
  induction evs with
  | nil => intro s0 h0; exact h0
  | cons e rest ih => intro s0 h0; exact ih _ (RInv_step e h0)

theorem reachable_RInv {s : RecorderState} (h : RecorderReachable s) :
    RInv s := by
  obtain ⟨evs, rfl⟩ := h
  exact foldl_RInv evs _ RInv_init

/-- Paused delivery is dropped before it reaches the pipeline or channel. -/
theorem deliver_f32_paused {s : RecorderState} {pid : ℕ}
    (hs : s.stream = some pid) (hp : s.flags pid = true)
    (channels : ℕ) (data : List ℚ) : deliver_f32 channels data s = s := by
  simp only [deliver_f32, hs]
  rw [hp]
  exact RecorderState.ext hs.symm rfl rfl rfl rfl rfl rfl rfl rfl rfl rfl
    rfl rfl

/-- Unpaused delivery offers each produced sample to the channel. -/
theorem deliver_f32_unpaused {s : RecorderState} {pid : ℕ}
    (hs : s.stream = some pid) (hp : s.flags pid = false)
    (channels : ℕ) (data : List ℚ) :
    deliver_f32 channels data s =
      { s with channel :=
          ((write_input_data_f32 false channels data).foldl
            (try_send s.cap) s.channel) } := by
  simp only [deliver_f32, hs]
  rw [hp]

/-- C10: every successful Start installs freshly created stop and pause
flags, both false, shares exactly those instances with the new capture
callback and encoder thread, and neither flag is one allocated by any
earlier session. -/
theorem start_installs_fresh_flags (s : RecorderState) (t rate : ℕ)
    (hreach : RecorderReachable s) (hrec : s.recording = false) :
    ((NativeRecorder.start t rate s).2.flags
        ((NativeRecorder.start t rate s).2.stop_id) = false) ∧
    ((NativeRecorder.start t rate s).2.flags
        ((NativeRecorder.start t rate s).2.pause_id) = false) ∧
    ((NativeRecorder.start t rate s).2.stream =
        some ((NativeRecorder.start t rate s).2.pause_id)) ∧
    ((NativeRecorder.start t rate s).2.writer_handle =
        some ((NativeRecorder.start t rate s).2.stop_id)) ∧
    (∀ i ∈ s.alloc_ids, i ≠ (NativeRecorder.start t rate s).2.stop_id ∧
        i ≠ (NativeRecorder.start t rate s).2.pause_id) := by
  obtain ⟨h1, _, _, _, _⟩ := reachable_RInv hreach
  simp only [NativeRecorder.start, hrec, Bool.false_eq_true, if_false]
  refine ⟨?_, ?_, by trivial, by trivial, ?_⟩
  · show setFlag (setFlag s.flags s.next_id false) (s.next_id + 1) false
      s.next_id = false
    unfold setFlag
    rw [if_neg (by omega), if_pos rfl]
  · show setFlag (setFlag s.flags s.next_id false) (s.next_id + 1) false
      (s.next_id + 1) = false
    unfold setFlag
    rw [if_pos rfl]
  · intro i hi
    have hlt := h1 i hi
    show i ≠ s.next_id ∧ i ≠ s.next_id + 1
    omega

/-- Witness for C10: starting from the freshly constructed recorder. -/
theorem start_installs_fresh_flags_witness :
    ((NativeRecorder.start 5 100 RecorderState.init).2.flags
        ((NativeRecorder.start 5 100 RecorderState.init).2.stop_id) = false) ∧
    (∀ i ∈ RecorderState.init.alloc_ids,
        i ≠ (NativeRecorder.start 5 100 RecorderState.init).2.stop_id ∧
        i ≠ (NativeRecorder.start 5 100 RecorderState.init).2.pause_id) := by
  have h := start_installs_fresh_flags RecorderState.init 5 100 ⟨[], rfl⟩ rfl
  exact ⟨h.1, h.2.2.2.2⟩

/-- C7: misuse commands are pure error signals — Stop while Idle returns
NotRecording with the state untouched; Start while recording returns
AlreadyRecording with the original session untouched. -/
theorem misuse_is_pure_error (s s' : RecorderState) (w : Bool) (t rate : ℕ)
    (hidle : s.recording = false) (hactive : s'.recording = true) :
    NativeRecorder.stop w s = (.error .NotRecording, s) ∧
    NativeRecorder.start t rate s' = (.error .AlreadyRecording, s') := by
  constructor
  · simp [NativeRecorder.stop, hidle]
  · simp [NativeRecorder.start, hactive]

/-- Witness for C7: Stop on the initial (idle) recorder and Start on a
recorder already recording. -/
theorem misuse_is_pure_error_witness :
    NativeRecorder.stop true RecorderState.init =
      (.error .NotRecording, RecorderState.init) ∧
    NativeRecorder.start 8 100 (runRecorder [RecEvent.start 7 100]) =
      (.error .AlreadyRecording, runRecorder [RecEvent.start 7 100]) :=
  misuse_is_pure_error RecorderState.init (runRecorder [RecEvent.start 7 100])
    true 8 100 rfl rfl

/-- C8: Pause and Resume mutate only the shared paused flag (all other
session fields, including the stop flag, are untouched), each fails with
NotRecording when idle, and a delivery that observes the paused flag is
discarded before reaching the pipeline or the channel. -/
theorem pause_resume_toggle_only :
    (∀ s : RecorderState, s.recording = true →
      NativeRecorder.pause s =
        (.ok (), { s with flags := setFlag s.flags s.pause_id true }) ∧
      NativeRecorder.resume s =
        (.ok (), { s with flags := setFlag s.flags s.pause_id false })) ∧
    (∀ s : RecorderState, s.recording = false →
      NativeRecorder.pause s = (.error .NotRecording, s) ∧
      NativeRecorder.resume s = (.error .NotRecording, s)) ∧
    (∀ (s : RecorderState) (i : ℕ) (v : Bool), i ≠ s.pause_id →
      setFlag s.flags s.pause_id v i = s.flags i) ∧
    (∀ s : RecorderState, RecorderReachable s → s.stop_id ≠ s.pause_id) ∧
    (∀ (s : RecorderState) (channels : ℕ) (data : List ℚ) (pid : ℕ),
      s.stream = some pid → s.flags pid = true →
      deliver_f32 channels data s = s) := by
  refine ⟨?_, ?_, ?_, ?_, ?_⟩
  · intro s hr
    constructor <;> simp [NativeRecorder.pause, NativeRecorder.resume, hr]
  · intro s hr
    constructor <;> simp [NativeRecorder.pause, NativeRecorder.resume, hr]
  · intro s i v hi
    simp [setFlag, hi]
  · intro s hr
    obtain ⟨_, h2, _, _, _⟩ := reachable_RInv hr
    omega
  · intro s channels data pid hs hp
    exact deliver_f32_paused hs hp channels data

/-- Witness for C8 on concrete states. -/
theorem pause_resume_toggle_only_witness :
    NativeRecorder.pause (runRecorder [RecEvent.start 7 100]) =
      (.ok (), { runRecorder [RecEvent.start 7 100] with
          flags := setFlag (runRecorder [RecEvent.start 7 100]).flags
            (runRecorder [RecEvent.start 7 100]).pause_id true }) ∧
    NativeRecorder.pause RecorderState.init =
      (.error .NotRecording, RecorderState.init) ∧
    (runRecorder [RecEvent.start 7 100]).stop_id ≠
      (runRecorder [RecEvent.start 7 100]).pause_id ∧
    deliver_f32 1 [1 / 2] (runRecorder [RecEvent.start 7 100, RecEvent.pause]) =
      runRecorder [RecEvent.start 7 100, RecEvent.pause] :=
  ⟨(pause_resume_toggle_only.1 _ rfl).1,
   (pause_resume_toggle_only.2.1 _ rfl).1,
   pause_resume_toggle_only.2.2.2.1 _ ⟨[RecEvent.start 7 100], rfl⟩,
   pause_resume_toggle_only.2.2.2.2 _ 1 [1 / 2] 3 rfl rfl⟩

/-- C5 (code-bug evaluation): after a Stop whose encoder-thread join
surfaces an error, the session is left with `recording = true` while both
the stream handle and the writer handle are absent — the spec invariant
`active = true` iff both handles present is violated by this reachable
state. -/
theorem stop_join_error_breaks_active_invariant :
    ((runRecorder [RecEvent.start 7 100, RecEvent.stop false]).recording
        = true) ∧
    ((runRecorder [RecEvent.start 7 100, RecEvent.stop false]).stream
        = none) ∧
    ((runRecorder [RecEvent.start 7 100, RecEvent.stop false]).writer_handle
        = none) :=
  ⟨rfl, rfl, rfl⟩

/-- C6 (code-bug evaluation): a Stop that surfaces the encoder thread's
IoError returns early at the `??` before the cleanup statements run, so the
session is NOT reset to Idle: `recording` stays true and the paused flag
stays set. -/
theorem stop_join_error_leaves_session_marked_recording :
    ((NativeRecorder.stop false
        (runRecorder [RecEvent.start 7 100, RecEvent.pause])).1
      = .error .IoError) ∧
    ((NativeRecorder.stop false
        (runRecorder [RecEvent.start 7 100, RecEvent.pause])).2.recording
      = true) ∧
    ((NativeRecorder.stop false
        (runRecorder [RecEvent.start 7 100, RecEvent.pause])).2.flags
      ((NativeRecorder.stop false
        (runRecorder [RecEvent.start 7 100, RecEvent.pause])).2.pause_id)
      = true) :=
  ⟨rfl, rfl, rfl⟩

/-! ## Output-path uniqueness (C9) -/

/-- Decimal digit value of a character. -/
def charDigit (c : Char) : ℕ := c.toNat - 48

theorem charDigit_decDigitChar {d : ℕ} (hd : d < 10) :
    charDigit (decDigitChar d) = d := by
  interval_cases d <;> decide

theorem natDecimal_decode (n : ℕ) :
    Nat.ofDigits 10 (((natDecimal n).map charDigit).reverse) = n := by
  by_cases hn : n = 0
  · subst hn
    decide
  · rw [natDecimal, if_neg hn, List.map_map]
    have hmap : (Nat.digits 10 n).reverse.map (charDigit ∘ decDigitChar)
        = (Nat.digits 10 n).reverse := by
      have hid : ∀ d ∈ (Nat.digits 10 n).reverse,
          (charDigit ∘ decDigitChar) d = id d := by
        intro d hd
        have hd10 : d < 10 :=
          Nat.digits_lt_base (by norm_num) (List.mem_reverse.mp hd)
        simp [Function.comp, charDigit_decDigitChar hd10]
      rw [List.map_congr_left hid, List.map_id]
    rw [hmap, List.reverse_reverse, Nat.ofDigits_digits]

theorem natDecimal_injective : Function.Injective natDecimal := by
  intro a b hab
  calc a = Nat.ofDigits 10 (((natDecimal a).map charDigit).reverse) :=
        (natDecimal_decode a).symm
    _ = Nat.ofDigits 10 (((natDecimal b).map charDigit).reverse) := by
        rw [hab]
    _ = b := natDecimal_decode b

theorem recording_path_injective : Function.Injective recording_path := by
  intro a b hab
  unfold recording_path at hab
  have h1 := List.append_cancel_left hab
  exact natDecimal_injective (List.append_cancel_right h1)

/-- C9 counterexample: two successful Start invocations within the same
clock second (same whole-seconds timestamp) resolve the SAME output path —
the run records two successful starts whose resolved paths coincide, so the
recorded path list is not duplicate-free. -/
theorem same_second_starts_collide :
    (runRecorder [RecEvent.start 777 100, RecEvent.stop true,
        RecEvent.start 777 100]).started_paths
      = [recording_path 777, recording_path 777] ∧
    ¬ (runRecorder [RecEvent.start 777 100, RecEvent.stop true,
        RecEvent.start 777 100]).started_paths.Nodup := by
  constructor
  · rfl
  · intro h
    have := List.nodup_cons.mp h
    exact this.1 (by simp)

/-- C9 amended: the resolved output paths of two successful Start
invocations are distinct whenever the two starts observe distinct
whole-second timestamps (the timestamp-to-filename map is injective);
uniqueness is NOT guaranteed for starts within the same second. -/
theorem distinct_timestamps_give_distinct_paths (t1 t2 : ℕ) (h : t1 ≠ t2) :
    recording_path t1 ≠ recording_path t2 :=
  fun hc => h (recording_path_injective hc)

/-- Witness for the amended C9 at timestamps 1 and 2. -/
theorem distinct_timestamps_give_distinct_paths_witness :
    recording_path 1 ≠ recording_path 2 :=
  distinct_timestamps_give_distinct_paths 1 2 (by decide)

/-! ## Pause scenario (C4) -/

theorem chunks_one_replicate {α : Type} (m : ℕ) (a : α) :
    chunks 1 (List.replicate m a) = List.replicate m [a] := by
  induction m with
  | zero => rfl
  | succ k ih =>
      rw [List.replicate_succ,
        show a :: List.replicate k a = [a] ++ List.replicate k a from rfl,
        chunks_cons 1 one_pos [a] _ rfl, ih, List.replicate_succ]

theorem foldl_try_send (cap : ℕ) (l : List ℤ) :
    ∀ ch : List ℤ, ch.length + l.length ≤ cap →
      l.foldl (try_send cap) ch = ch ++ l := by
  induction l with
  | nil => intro ch _; simp
  | cons v vs ih =>
      intro ch h
      rw [List.foldl_cons]
      have hlen : ch.length < cap := by
        simp only [List.length_cons] at h
        omega
      rw [show try_send cap ch v = ch ++ [v] from by simp [try_send, hlen]]
      rw [ih (ch ++ [v]) (by
        simp only [List.length_append, List.length_cons,
          List.length_nil] at h ⊢
        omega)]
      simp

theorem push_sample_half :
    push_sample AudioPipeline.new ((1 : ℚ) / 2) = 16383 := by
  have hfl : ((32767 : ℚ) / 2).floor = 16383 := by
    have hb : ((32767 : ℚ) / 2).floor = ⌊(32767 : ℚ) / 2⌋ := by
      rw [Rat.floor_def', Rat.floor_def]
    rw [hb, Int.floor_eq_iff]
    constructor <;> norm_num
  have hlim : (AudioPipeline.new.process_sample ((1 : ℚ) / 2)).2 = 1 / 2 := by
    unfold AudioPipeline.process_sample AudioPipeline.apply_limiter
      AudioPipeline.new
    norm_num
  have hcl : rustClamp ((1 : ℚ) / 2) (-1) 1 = 1 / 2 := by
    unfold rustClamp
    norm_num
  have hmul : ((1 : ℚ) / 2) * 32767 = 32767 / 2 := by ring
  unfold push_sample
  rw [hlim, hcl, hmul]
  unfold f32_as_i16
  rw [if_pos (show (0 : ℚ) ≤ 32767 / 2 by norm_num), hfl]
  unfold i16_sat
  norm_num

theorem write_input_replicate_half :
    write_input_data_f32 false 1 (List.replicate 1000 ((1 : ℚ) / 2)) =
      List.replicate 1000 (16383 : ℤ) := by
  show (write_frames_f32 1 (List.replicate 1000 ((1 : ℚ) / 2))).map
      (push_sample AudioPipeline.new) = List.replicate 1000 (16383 : ℤ)
  rw [write_frames_f32, chunks_one_replicate]
  simp only [List.map_replicate]
  congr 1
  rw [show ([(1 : ℚ) / 2].sum / ((1 : ℕ) : ℚ)) = (1 : ℚ) / 2 by norm_num]
  exact push_sample_half

/-- The spec's pause scenario: Start, Pause, feed 1000 half-amplitude
samples, Resume, feed 1000 half-amplitude samples, Stop (encoder succeeds).
Mono device (1 channel), 44100 Hz bounded channel. -/
def scenario_events : List RecEvent :=
  [RecEvent.start 777 44100, RecEvent.pause,
   RecEvent.deliverF32 1 (List.replicate 1000 ((1 : ℚ) / 2)),
   RecEvent.resume,
   RecEvent.deliverF32 1 (List.replicate 1000 ((1 : ℚ) / 2)),
   RecEvent.stop true]

def scenario_A : RecorderState :=
  runRecorder [RecEvent.start 777 44100, RecEvent.pause]

def scenario_B : RecorderState := (NativeRecorder.resume scenario_A).2

/-- A successful Stop of an active session appends the drained channel
contents to the container file. -/
theorem stop_ok_file (s : RecorderState) (k : ℕ) (hr : s.recording = true)
    (hw : s.writer_handle = some k) :
    (NativeRecorder.stop true s).2.file = s.file ++ s.channel := by
  unfold NativeRecorder.stop
  rw [hr, hw]
  cases hop : s.output_path <;> simp [hop]

theorem scenario_file_eq :
    (runRecorder scenario_events).file = List.replicate 1000 (16383 : ℤ) := by
  have h1 : runRecorder scenario_events =
      (NativeRecorder.stop true
        (deliver_f32 1 (List.replicate 1000 ((1 : ℚ) / 2))
          (recStep (deliver_f32 1 (List.replicate 1000 ((1 : ℚ) / 2))
            scenario_A) RecEvent.resume))).2 := rfl
  have h2 : deliver_f32 1 (List.replicate 1000 ((1 : ℚ) / 2)) scenario_A
      = scenario_A := deliver_f32_paused rfl rfl 1 _
  have h3 : recStep scenario_A RecEvent.resume = scenario_B := rfl
  have hcap : scenario_B.cap = 44100 := rfl
  have hch : scenario_B.channel = ([] : List ℤ) := rfl
  have hx : ((write_input_data_f32 false 1
        (List.replicate 1000 ((1 : ℚ) / 2))).foldl
      (try_send scenario_B.cap) scenario_B.channel)
      = List.replicate 1000 (16383 : ℤ) := by
    rw [write_input_replicate_half, hcap, hch,
      foldl_try_send 44100 _ [] (by
        simp only [List.length_nil, List.length_replicate]
        omega),
      List.nil_append]
  have h4 : deliver_f32 1 (List.replicate 1000 ((1 : ℚ) / 2)) scenario_B
      = { scenario_B with channel := List.replicate 1000 (16383 : ℤ) } :=
    (@deliver_f32_unpaused scenario_B 3 rfl rfl 1
      (List.replicate 1000 ((1 : ℚ) / 2))).trans
      (congrArg (fun ch => { scenario_B with channel := ch }) hx)
  have h5 := stop_ok_file
    { scenario_B with channel := List.replicate 1000 (16383 : ℤ) } 2 rfl rfl
  rw [h1, h2, h3, h4, h5]
  show scenario_B.file ++ List.replicate 1000 ((16383 : ℤ)) =
    List.replicate 1000 ((16383 : ℤ))
  rw [show scenario_B.file = ([] : List ℤ) from rfl, List.nil_append]

/-- C4 counterexample: in the scenario Start, Pause, feed 1000 samples of
value 0.5, Resume, feed 1000 samples of value 0.5, Stop, the written
samples are NOT round(0.5 * 32767) = 16384 — the Rust `as i16` cast
truncates toward zero, so each sample is 16383. -/
theorem pause_scenario_not_rounded :
    (runRecorder scenario_events).file ≠
      List.replicate 1000 (16384 : ℤ) := by
  rw [scenario_file_eq]
  intro h
  have h0 := congrArg (fun l : List ℤ => l.getD 0 0) h
  exact absurd h0 (by decide)

/-- C4 amended: in the scenario Start, Pause, feed 1000 samples of value
0.5, Resume, feed 1000 samples of value 0.5, Stop, the finalized file
contains exactly 1000 samples (the paused window is excluded), each equal
to trunc(0.5 * 32767) = 16383; each processed mono float is clamped to
[-1,1] and scaled by 32767 with truncation toward zero. -/
theorem pause_scenario_file_exact :
    (runRecorder scenario_events).file =
      List.replicate 1000 (16383 : ℤ) :=
  scenario_file_eq

end Cogniscribe
